import Mathlib

/-!
Verification of the scp-bot repository (Discord digital-library bot).

Shallow embedding of the Python sources:
  * `queries.py`   — `LibraryDatabase` query layer over the `library_content` table,
  * `scraper.py`   — URL classification, sitemap reconciliation, retrying page scrape,
                     incremental-update batch loop, record storage,
  * `bot.py`       — the per-user `LibraryView` browsing-session state machine and the
                     admin-command mutual-exclusion lock.

The SQLite table `library_content` is modelled as a `List ArticleRecord`; SQL text
columns are Lean `String`s.  The `tags` column physically stores a JSON-encoded list of
strings; it is modelled as the decoded `List String`, with `jsonTags` reproducing the
stored JSON text (`json.dumps` formatting) where SQL operates on the raw text.  SQL
`LIKE '%x%'` is an ASCII-case-insensitive substring test, modelled by `like`.  Python's
string membership test `a in b` is modelled as list-infix `a.toList <:+: b.toList`,
`str.endswith` as list-suffix.  Timestamps (`scraped_at`) are modelled as `Nat`.
-/

namespace SCPBot

/-- One row of the `library_content` table (scraper.py `setup_database`). -/
structure ArticleRecord where
  url : String
  title : String
  categories : String
  author : String
  published_date : String
  tags : List String
  description : String
  last_modified : Option String
  scraped_at : Nat
  scrape_success : Bool
deriving DecidableEq, Repr

/-- The stored JSON text of the `tags` column: `json.dumps` of a list of plain strings
(default separator `", "`). -/
def jsonTags (tags : List String) : String :=
  "[" ++ String.intercalate ", " (tags.map (fun t => "\"" ++ t ++ "\"")) ++ "]"

/-- SQLite `LIKE '%needle%'` : ASCII-case-insensitive substring match. -/
def like (needle hay : String) : Bool :=
  decide ((needle.toList.map Char.toLower) <:+: (hay.toList.map Char.toLower))

/-- Structural lexicographic comparison of character lists by code point — the
order Python's `sorted` uses on strings (and SQLite's default BINARY collation in
`ORDER BY`). -/
def charListLe : List Char → List Char → Bool
  | [], _ => true
  | _ :: _, [] => false
  | a :: as, b :: bs => if a = b then charListLe as bs else decide (a < b)

/-- Boolean form of the lexicographic string order used for `sorted(...)` /
SQL `ORDER BY`. -/
def strLe (a b : String) : Bool := charListLe a.toList b.toList

/-- Python's `sorted` is a stable sort; so is `List.insertionSort`, so with a total
preorder the two produce identical output.  (`List.mergeSort` is defined by
well-founded recursion, which blocks kernel evaluation on concrete stores, hence
insertion sort throughout.) -/
def strLeRel (a b : String) : Prop := strLe a b = true

instance : DecidableRel strLeRel := fun a b =>
  inferInstanceAs (Decidable (strLe a b = true))

/-- queries.py `get_all_categories`: rows with `scrape_success = 1` and
`categories != "Uncategorized"` (SQL `DISTINCT` modelled by `eraseDups`; the SQL
`ORDER BY` is irrelevant because the Python layer re-sorts), then each non-empty
comma-joined string is split, stripped, union-ed into a set and sorted. -/
def split_categories (s : String) : List String :=
  (s.splitOn ",").map (fun c => c.trim)

def get_all_categories (db : List ArticleRecord) : List String :=
  let rows := ((db.filter
      (fun r => r.scrape_success && !(r.categories == "Uncategorized"))).map
      (fun r => r.categories)).eraseDups
  let all_categories :=
    ((rows.filter (fun s => !(s == ""))).map split_categories).flatten.eraseDups
  all_categories.insertionSort strLeRel

/-- queries.py `get_all_authors`: `SELECT DISTINCT author ... WHERE scrape_success = 1
AND author != "Unknown" ORDER BY author`. -/
def get_all_authors (db : List ArticleRecord) : List String :=
  (((db.filter (fun r => r.scrape_success && !(r.author == "Unknown"))).map
      (fun r => r.author)).eraseDups).insertionSort strLeRel

/-- One step of the Python `tag_counts` dict update: bump the count of `t`, preserving
first-insertion order (Python dicts preserve insertion order). -/
def bumpTag (counts : List (String × Nat)) (t : String) : List (String × Nat) :=
  match counts with
  | [] => [(t, 1)]
  | (s, n) :: rest => if s = t then (s, n + 1) :: rest else (s, n) :: bumpTag rest t

/-- queries.py `get_all_tags_with_counts` count accumulation: iterate the fetched rows
(each a decoded tag list) and bump each tag. -/
def tagCounts (rows : List (List String)) : List (String × Nat) :=
  rows.foldl (fun acc tags => tags.foldl bumpTag acc) []

/-- Comparison used by `sorted(tag_counts.items(), key=lambda x: x[1], reverse=True)`:
descending by count; Python's sort is stable and `reverse=True` keeps equal elements in
insertion order, matching Lean's stable `mergeSort` with this `le`. -/
def countDescLe (a b : String × Nat) : Prop := b.2 ≤ a.2

instance : DecidableRel countDescLe := fun a b =>
  inferInstanceAs (Decidable (b.2 ≤ a.2))

/-- The rows fetched by `get_all_tags_with_counts`:
`SELECT tags FROM library_content WHERE scrape_success = 1 AND tags != "[]"`. -/
def tagRows (db : List ArticleRecord) : List (List String) :=
  (db.filter (fun r => r.scrape_success && !(r.tags == []))).map (fun r => r.tags)

/-- queries.py `get_all_tags_with_counts`: rows with `scrape_success = 1 AND
tags != "[]"`, count tag occurrences, take the top 24 by count (stable, descending),
then re-sort those alphabetically for display. -/
def get_all_tags_with_counts (db : List ArticleRecord) : List String :=
  let tag_counts := tagCounts (tagRows db)
  let sorted_by_popularity := tag_counts.insertionSort countDescLe
  let top_24_tags := (sorted_by_popularity.take 24).map (fun p => p.1)
  top_24_tags.insertionSort strLeRel

/-- `ORDER BY published_date DESC, scraped_at DESC` of queries.py `search_content`:
`a` may precede `b` when its date string is lexicographically later, with ties broken
by the later write timestamp. -/
def ordLe (a b : ArticleRecord) : Prop :=
  (strLe b.published_date a.published_date = true ∧ a.published_date ≠ b.published_date) ∨
    (a.published_date = b.published_date ∧ b.scraped_at ≤ a.scraped_at)

instance : DecidableRel ordLe := fun _a _b =>
  inferInstanceAs (Decidable (_ ∨ _))

/-- queries.py `search_content`: dynamic WHERE clause.  A filter participates only when
the Python value is truthy (`if category:` etc.), i.e. present and non-empty. -/
def searchOk (category author tag search_term : Option String) (r : ArticleRecord) :
    Bool :=
  r.scrape_success
  && (match category with
      | some c => if c == "" then true else like c r.categories
      | none => true)
  && (match author with
      | some a => if a == "" then true else r.author == a
      | none => true)
  && (match tag with
      | some t => if t == "" then true else like ("\"" ++ t ++ "\"") (jsonTags r.tags)
      | none => true)
  && (match search_term with
      | some s => if s == "" then true else
          like s r.title || like s r.categories || like s r.author ||
            like s (jsonTags r.tags) || like s r.description
      | none => true)

/-- queries.py `search_content`: filter, order, `LIMIT`. -/
def search_content (db : List ArticleRecord) (category author tag search_term : Option String)
    (limit : Nat) : List ArticleRecord :=
  ((db.filter (searchOk category author tag search_term)).insertionSort ordLe).take limit

/-- `SELECT MAX(scraped_at) FROM library_content` — over ALL rows, regardless of
`scrape_success`; `none` on an empty table (SQL NULL). -/
def maxScrapedAt : List ArticleRecord → Option Nat
  | [] => none
  | r :: rs =>
      match maxScrapedAt rs with
      | none => some r.scraped_at
      | some m => some (max r.scraped_at m)

/-- Result shape of queries.py `get_content_stats`. -/
structure Stats where
  total_articles : Nat
  total_categories : Nat
  total_authors : Nat
  total_tags : Nat
  last_update : Option Nat
deriving DecidableEq, Repr

/-- queries.py `get_content_stats`. -/
def get_content_stats (db : List ArticleRecord) : Stats :=
  { total_articles := (db.filter (fun r => r.scrape_success)).length
    total_categories := (get_all_categories db).length
    total_authors := (get_all_authors db).length
    total_tags := (get_all_tags_with_counts db).length
    last_update := maxScrapedAt db }

/-! ## scraper.py -/

/-- scraper.py `self.base_url` default. -/
def base_url : String := "https://sacredcommunityproject.org"

/-- The character list of the canonical listing root with trailing slash — the
common prefix of every well-formed content URL `base + /digital-library/<slug>`. -/
def library_root : List Char := (base_url ++ "/digital-library/").toList

/-- A sitemap manifest entry (scraper.py `parse_individual_sitemap`): the `lastmod`
element may be absent. -/
structure UrlData where
  url : String
  lastmod : Option String
deriving DecidableEq, Repr

/-- scraper.py `is_article_url`, translated clause for clause.  Python's substring
test `a in url` is list-infix, `url.endswith(a)` is list-suffix. -/
def is_article_url (url : List Char) : Bool :=
  if !(decide ("/digital-library".toList <:+: url)) then false
  else if decide ("/digital-library".toList <:+ url) ||
      decide ("/digital-library/".toList <:+ url) then false
  else if decide ("/digital-library/category/".toList <:+: url) then false
  else if decide ("/digital-library/tag/".toList <:+: url) then false
  else if decide ("?author=".toList <:+: url) ||
      decide ("&author=".toList <:+: url) then false
  else if decide ("/digital-library?".toList <:+: url) then false
  else if decide ("/digital-library/".toList <:+: url) &&
      !(decide ("category/".toList <:+: url) || decide ("tag/".toList <:+: url) ||
        decide ("?".toList <:+: url)) then true
  else false

/-- `SELECT last_modified, scraped_at FROM library_content WHERE url = ?`
(`url` is UNIQUE, so at most one row). -/
def findRecord (db : List ArticleRecord) (url : String) : Option ArticleRecord :=
  db.find? (fun r => r.url == url)

/-- The reconciliation loop of scraper.py `check_for_updates` (lines 431–445), applied
to the article entries of the manifest: `new_articles` are entries with no stored
record; `updated_articles` are entries with a stored record whose sitemap `lastmod` is
truthy (present and non-empty, Python `if sitemap_lastmod and ...`) and differs from
the stored `last_modified`.  The function returns `new_articles ++ updated_articles`.
The single Python pass appends each entry to exactly one of the two lists, preserving
order, which is what the two order-preserving filters of `reconcile` reproduce.
`changed_entry` is the `elif` branch's condition. -/
def changed_entry (db : List ArticleRecord) (u : UrlData) : Bool :=
  match findRecord db u.url with
  | none => false
  | some r =>
      match u.lastmod with
      | none => false
      | some lm => if lm == "" then false else decide (some lm ≠ r.last_modified)

def reconcile (db : List ArticleRecord) (article_urls : List UrlData) : List UrlData :=
  let new_articles := article_urls.filter (fun u => (findRecord db u.url).isNone)
  let updated_articles := article_urls.filter (changed_entry db)
  new_articles ++ updated_articles

/-- The metadata dict produced by scraper.py `extract_metadata`, as handed to
`store_data` (all columns except the store-supplied `scraped_at`). -/
structure ScrapedData where
  url : String
  title : String
  categories : String
  author : String
  published_date : String
  tags : List String
  description : String
  last_modified : Option String
  scrape_success : Bool
deriving DecidableEq, Repr

/-- scraper.py `store_data`: `INSERT OR REPLACE` keyed on the UNIQUE `url` column —
any previous row for the same url is deleted and a fresh row inserted; the
`scraped_at` column takes a fresh `CURRENT_TIMESTAMP` (`now`). -/
def store_data (db : List ArticleRecord) (data : ScrapedData) (now : Nat) :
    List ArticleRecord :=
  (db.filter (fun r => !(r.url == data.url))) ++
    [{ url := data.url, title := data.title, categories := data.categories,
       author := data.author, published_date := data.published_date,
       tags := data.tags, description := data.description,
       last_modified := data.last_modified, scraped_at := now,
       scrape_success := data.scrape_success }]

/-- scraper.py `self.max_retries`. -/
def max_retries : Nat := 3

/-- scraper.py `scrape_page` retry loop, `remaining` attempts left starting at index
`attempt`.  `fetch i` is the outcome of attempt `i`: `none` models a raised exception
(network failure); `some d` models a completed fetch+extract — note that
`extract_metadata` catches its own exceptions and returns data with
`scrape_success = False` instead of raising, so extraction problems appear as `some d`
with `d.scrape_success = false`.  Returns (result, error-counter increment, total
seconds slept between attempts: `time.sleep(2)` before every retry). -/
def scrape_page_go (fetch : Nat → Option ScrapedData) (attempt : Nat) :
    Nat → Option ScrapedData × Nat × Nat
  | 0 => (none, 0, 0)
  | 1 =>
      (match fetch attempt with
       | some d => (some d, 0, 0)
       | none => (none, 1, 0))
  | remaining + 2 =>
      match fetch attempt with
      | some d => (some d, 0, 0)
      | none =>
          let rest := scrape_page_go fetch (attempt + 1) (remaining + 1)
          (rest.1, rest.2.1, rest.2.2 + 2)

/-- scraper.py `scrape_page`: up to `max_retries` attempts starting at attempt 0. -/
def scrape_page (fetch : Nat → Option ScrapedData) : Option ScrapedData × Nat × Nat :=
  scrape_page_go fetch 0 max_retries

/-- The per-run counters of scraper.py `self.stats` used by the batch loop. -/
structure RunStats where
  errors : Nat
  pages_scraped : Nat
deriving DecidableEq, Repr

/-- One iteration of the batch loop of scraper.py `run_incremental_update`
(lines 490–512): scrape the page (`fetchFor u.url` gives the per-attempt outcomes for
that URL); when data came back (`if data:`), store it and count the page; when the
scrape failed (`None`), only the error counter changes (incremented inside
`scrape_page`) and the loop moves on to the next URL. -/
def process_url (fetchFor : String → Nat → Option ScrapedData) (now : Nat)
    (st : List ArticleRecord × RunStats) (u : UrlData) :
    List ArticleRecord × RunStats :=
  let res := scrape_page (fetchFor u.url)
  match res.1 with
  | some d =>
      (store_data st.1 d now,
       { errors := st.2.errors + res.2.1, pages_scraped := st.2.pages_scraped + 1 })
  | none =>
      (st.1, { errors := st.2.errors + res.2.1, pages_scraped := st.2.pages_scraped })

/-- The whole batch loop of `run_incremental_update` over the selected URLs. -/
def run_update_loop (fetchFor : String → Nat → Option ScrapedData) (now : Nat)
    (st : List ArticleRecord × RunStats) (urls : List UrlData) :
    List ArticleRecord × RunStats :=
  urls.foldl (process_url fetchFor now) st

/-! ## bot.py — the per-user `LibraryView` browsing session -/

/-- config.py `RESULTS_PER_PAGE`. -/
def RESULTS_PER_PAGE : Nat := 5

/-- config.py `SEARCH_RESULTS_LIMIT`. -/
def SEARCH_RESULTS_LIMIT : Nat := 20

/-- The four filter fields of bot.py `LibraryView.current_filters`. -/
structure SessionFilters where
  category : Option String
  author : Option String
  tag : Option String
  search_term : Option String
deriving DecidableEq, Repr

/-- The mutable per-user session state of bot.py `LibraryView`. -/
structure SessionState where
  filters : SessionFilters
  results : List ArticleRecord
  page : Nat
deriving DecidableEq, Repr

/-- Which message a transition renders to the user. -/
inductive Render where
  | resultsPage
  | noResults
  | searchError
  | firstPageNotice
  | lastPageNotice
deriving DecidableEq, Repr

/-- The query issued by bot.py `update_results` via `search_library` when the database
layer does not raise. -/
def session_query (db : List ArticleRecord) (f : SessionFilters) :
    List ArticleRecord :=
  search_content db f.category f.author f.tag f.search_term SEARCH_RESULTS_LIMIT

/-- bot.py `LibraryView.update_results` (lines 250–269): on success assign
`current_results`, reset `current_page` to 0 and render via `show_results`; on a raised
search error (`outcome = .error ()`), the `except` block renders an error notice and
performs **no** state assignment — `current_results` and `current_page` keep whatever
values they had before the event. -/
def update_results (st : SessionState) (outcome : Except Unit (List ArticleRecord)) :
    SessionState × Render :=
  match outcome with
  | Except.ok res =>
      ({ st with results := res, page := 0 },
       if res.isEmpty then Render.noResults else Render.resultsPage)
  | Except.error _ => (st, Render.searchError)

/-- bot.py `LibraryView.category_callback`: set (or clear, on the `"clear"` sentinel
option) the category filter, then `update_results`. -/
def category_callback (st : SessionState) (selected : String)
    (outcome : Except Unit (List ArticleRecord)) : SessionState × Render :=
  let st1 := { st with filters :=
    { st.filters with category := if selected == "clear" then none else some selected } }
  update_results st1 outcome

/-- bot.py `LibraryView.author_callback`. -/
def author_callback (st : SessionState) (selected : String)
    (outcome : Except Unit (List ArticleRecord)) : SessionState × Render :=
  let st1 := { st with filters :=
    { st.filters with author := if selected == "clear" then none else some selected } }
  update_results st1 outcome

/-- bot.py `LibraryView.tag_callback`. -/
def tag_callback (st : SessionState) (selected : String)
    (outcome : Except Unit (List ArticleRecord)) : SessionState × Render :=
  let st1 := { st with filters :=
    { st.filters with tag := if selected == "clear" then none else some selected } }
  update_results st1 outcome

/-- bot.py `SearchModal.on_submit`: `search_term = value if value else None`. -/
def search_modal_submit (st : SessionState) (value : String)
    (outcome : Except Unit (List ArticleRecord)) : SessionState × Render :=
  let st1 := { st with filters :=
    { st.filters with search_term := if value == "" then none else some value } }
  update_results st1 outcome

/-- bot.py `show_results` pagination: `total_pages = (len(results) + PAGE - 1) // PAGE`.
(Python and truncated `Nat` subtraction agree here since the numerator is ≥ 0.) -/
def total_pages (st : SessionState) : Nat :=
  (st.results.length + RESULTS_PER_PAGE - 1) / RESULTS_PER_PAGE

/-- bot.py `show_results` page slice: `results[page*PAGE : page*PAGE + PAGE]`. -/
def page_slice (st : SessionState) : List ArticleRecord :=
  (st.results.drop (st.page * RESULTS_PER_PAGE)).take RESULTS_PER_PAGE

/-- bot.py `LibraryView.previous_button` (lines 362–370): decrement only when
`current_page > 0`, otherwise an ephemeral "already on the first page" notice and no
state change. -/
def previous_button (st : SessionState) : SessionState × Render :=
  if 0 < st.page then ({ st with page := st.page - 1 }, Render.resultsPage)
  else (st, Render.firstPageNotice)

/-- bot.py `LibraryView.next_button` (lines 372–381): increment only when
`current_page < total_pages - 1`, otherwise an ephemeral "already on the last page"
notice and no state change.  (For `total_pages = 0` Python compares `page < -1`,
false for every page ≥ 0; the truncated `Nat` form `page < 0 - 1 = 0` is likewise
false, so the translation agrees.) -/
def next_button (st : SessionState) : SessionState × Render :=
  if st.page < total_pages st - 1 then ({ st with page := st.page + 1 }, Render.resultsPage)
  else (st, Render.lastPageNotice)

/-! ## utils/views/library_view.py — the alternative (unwired) `LibraryView` -/

/-- The state of the alternative `LibraryView` in utils/views/library_view.py.  This
class is not imported by bot.py; it is the other "variant" of the browsing interface. -/
structure UtilsViewState where
  current_category : Option String
  current_author : Option String
  current_query : String
  current_results : List ArticleRecord
  current_page : Nat
deriving DecidableEq, Repr

/-- utils/views/library_view.py `LibraryView.load_results` (lines 281–303): on success
assign `current_results` (the searched/enhanced list, supplied here as the `ok`
payload); on any exception assign `current_results = []` explicitly. -/
def utils_load_results (st : UtilsViewState)
    (outcome : Except Unit (List ArticleRecord)) : UtilsViewState :=
  match outcome with
  | Except.ok res => { st with current_results := res }
  | Except.error _ => { st with current_results := [] }

/-- utils/views/library_view.py `LibraryView.update_filters` (lines 263–272): a field
is assigned only when the argument `is not None` (so passing `None` — the "All ..."
option — cannot clear it), then `current_page = 0` and `load_results`. -/
def utils_update_filters (st : UtilsViewState) (category author : Option String)
    (outcome : Except Unit (List ArticleRecord)) : UtilsViewState :=
  let st1 := match category with
    | none => st
    | some c => { st with current_category := some c }
  let st2 := match author with
    | none => st1
    | some a => { st1 with current_author := some a }
  utils_load_results { st2 with current_page := 0 } outcome

/-! ## bot.py — admin mutual-exclusion lock

bot.py guards `quick-update-library` and `rebuild-library` with the module-level
`admin_operation_lock = asyncio.Lock()`.  Each handler first tests
`admin_operation_lock.locked()` and replies with an "Operation In Progress" notice
without touching the lock; otherwise it enters `async with admin_operation_lock`.
Under asyncio's single-threaded cooperative scheduling there is no `await` between the
`locked()` test and the lock acquisition, so the test-and-acquire pair is one atomic
step; each handler invocation is therefore modelled as one atomic transition. -/

/-- The two admin sync operations. -/
inductive RunKind where
  | update
  | rebuild
deriving DecidableEq, Repr

/-- Process-level admin state: the runs currently holding the lock
(`admin_operation_lock.locked()` ⟺ `active ≠ []`) and the store the running scraper
subprocess mutates. -/
structure AdminState where
  active : List RunKind
  db : List ArticleRecord
deriving Repr

/-- Reply sent back to the invoking admin surface. -/
inductive AdminResponse where
  | started (k : RunKind)
  | rejectedInProgress
  | completed (stats : Stats)
deriving DecidableEq, Repr

/-- Start attempt (both `update_library_command` and `refresh_library_command` share
this shape): if the lock is held, reply with the in-progress notice and change
nothing — the attempt is rejected, not queued; otherwise acquire the lock and start
the run. -/
def admin_start (st : AdminState) (k : RunKind) : AdminState × AdminResponse :=
  if !st.active.isEmpty then (st, AdminResponse.rejectedInProgress)
  else ({ st with active := st.active ++ [k] }, AdminResponse.started k)

/-- Completion of the running operation: the scraper subprocess's effect on the store
is applied, the lock is released, and the handler reports the fresh
`get_library_stats()` to the admin. -/
def admin_finish (st : AdminState) (effect : List ArticleRecord → List ArticleRecord) :
    AdminState × AdminResponse :=
  let db' := effect st.db
  ({ active := st.active.drop 1, db := db' },
   AdminResponse.completed (get_content_stats db'))

/-- Events arriving at the process: an admin pressing one of the two commands, or the
in-flight run completing with a given store effect. -/
inductive AdminEvent where
  | start (k : RunKind)
  | finish (effect : List ArticleRecord → List ArticleRecord)

/-- State reached after one event. -/
def admin_step (st : AdminState) : AdminEvent → AdminState
  | AdminEvent.start k => (admin_start st k).1
  | AdminEvent.finish eff => (admin_finish st eff).1

/-- Replay a whole event trace. -/
def admin_replay (init : AdminState) (events : List AdminEvent) : AdminState :=
  events.foldl admin_step init

/-! ## Concrete sample data -/

/-- Sample successful record (used in witnesses). -/
def rGood : ArticleRecord :=
  { url := "https://sacredcommunityproject.org/digital-library/a"
    title := "A Path Through"
    categories := "Grief, Healing"
    author := "Jane Doe"
    published_date := "2025-01-02"
    tags := ["grief", "healing"]
    description := "an essay"
    last_modified := some "2025-01-01"
    scraped_at := 10
    scrape_success := true }

/-- Sample failed record (no title found ⇒ `scrape_success = false`). -/
def rBad : ArticleRecord :=
  { url := "https://sacredcommunityproject.org/digital-library/b"
    title := "No title found"
    categories := "Uncategorized"
    author := "Unknown"
    published_date := "Unknown"
    tags := []
    description := ""
    last_modified := some "2025-01-03"
    scraped_at := 11
    scrape_success := false }

/-- Stored record for reconcile-scenario URL B (manifest lastmod unchanged). -/
def recB : ArticleRecord :=
  { rGood with
    url := "https://sacredcommunityproject.org/digital-library/b-article"
    last_modified := some "2025-02-01" }

/-- Stored record for reconcile-scenario URL C (manifest lastmod changed). -/
def recC : ArticleRecord :=
  { rGood with
    url := "https://sacredcommunityproject.org/digital-library/c-article"
    last_modified := some "2025-02-02"
    scraped_at := 12 }

/-- Manifest entry A: not in the store. -/
def uA : UrlData :=
  { url := "https://sacredcommunityproject.org/digital-library/a-article"
    lastmod := some "2025-03-01" }

/-- Manifest entry B: stored, lastmod equal to the stored value. -/
def uB : UrlData :=
  { url := "https://sacredcommunityproject.org/digital-library/b-article"
    lastmod := some "2025-02-01" }

/-- Manifest entry C: stored, lastmod different from the stored value. -/
def uC : UrlData :=
  { url := "https://sacredcommunityproject.org/digital-library/c-article"
    lastmod := some "2025-03-02" }

/-- A `ScrapedData` value with `scrape_success = false` for a fresh URL. -/
def dFail : ScrapedData :=
  { url := "https://sacredcommunityproject.org/digital-library/f"
    title := "No title found"
    categories := "Uncategorized"
    author := "Unknown"
    published_date := "Unknown"
    tags := []
    description := ""
    last_modified := some "2025-04-01"
    scrape_success := false }

/-- Store with tag frequencies grief = 5, healing = 5, music = 1. -/
def tagDb3 : List ArticleRecord :=
  (List.range 5).map (fun i =>
    { rGood with
      url := "https://sacredcommunityproject.org/digital-library/g" ++ toString i
      tags := ["grief", "healing"]
      scraped_at := i }) ++
  [{ rGood with
      url := "https://sacredcommunityproject.org/digital-library/m"
      tags := ["music"] }]

/-- Two-digit zero-padded numeral, so numeric and alphabetical order agree. -/
def two_digit (n : Nat) : String :=
  (if n < 10 then "0" else "") ++ toString n

/-- Store with 25 distinct tags, each of count 1, first seen in the scan in reverse
alphabetical order t25, t24, …, t01. -/
def tagDb25 : List ArticleRecord :=
  (List.range 25).map (fun i =>
    { rGood with
      url := "https://sacredcommunityproject.org/digital-library/t" ++ toString i
      tags := ["t" ++ two_digit (25 - i)]
      scraped_at := i })

/-- State component of `next_button`. -/
def nb (st : SessionState) : SessionState := (next_button st).1

/-- State component of `previous_button`. -/
def pb (st : SessionState) : SessionState := (previous_button st).1

/-- Twelve distinct result records. -/
def results12 : List ArticleRecord :=
  (List.range 12).map (fun i =>
    { rGood with
      url := "https://sacredcommunityproject.org/digital-library/r" ++ toString i
      scraped_at := i })

/-- A session on page 0 holding twelve results. -/
def sess12 : SessionState :=
  { filters := { category := none, author := none, tag := none, search_term := none }
    results := results12
    page := 0 }

/-! ## Theorems -/

/-- Rows whose filter predicate requires `scrape_success` ignore an appended failed
record. -/
theorem filter_append_failed (r : ArticleRecord) (hr : r.scrape_success = false)
    (q : ArticleRecord → Bool) (db : List ArticleRecord)
    (hq : ∀ x, q x = true → x.scrape_success = true) :
    (db ++ [r]).filter q = db.filter q := by
  have hqr : q r = false := by
    cases h : q r
    · rfl
    · rw [hq r h] at hr; cases hr
  rw [List.filter_append]
  simp [hqr]

/-- Appending a failed record leaves `get_all_categories` unchanged. -/
theorem get_all_categories_append_failed (r : ArticleRecord)
    (hr : r.scrape_success = false) (db : List ArticleRecord) :
    get_all_categories (db ++ [r]) = get_all_categories db := by
  unfold get_all_categories
  rw [filter_append_failed r hr _ db
    (by intro x hx; exact (Bool.and_eq_true_iff.mp hx).1)]

/-- Appending a failed record leaves `get_all_authors` unchanged. -/
theorem get_all_authors_append_failed (r : ArticleRecord)
    (hr : r.scrape_success = false) (db : List ArticleRecord) :
    get_all_authors (db ++ [r]) = get_all_authors db := by
  unfold get_all_authors
  rw [filter_append_failed r hr _ db
    (by intro x hx; exact (Bool.and_eq_true_iff.mp hx).1)]

/-- Appending a failed record leaves `get_all_tags_with_counts` unchanged. -/
theorem get_all_tags_append_failed (r : ArticleRecord)
    (hr : r.scrape_success = false) (db : List ArticleRecord) :
    get_all_tags_with_counts (db ++ [r]) = get_all_tags_with_counts db := by
  have htagrows : tagRows (db ++ [r]) = tagRows db := by
    unfold tagRows
    rw [filter_append_failed r hr _ db
      (by intro x hx; exact (Bool.and_eq_true_iff.mp hx).1)]
  unfold get_all_tags_with_counts
  rw [htagrows]

/-- Appending a failed record leaves the success count unchanged. -/
theorem filter_success_append_failed (r : ArticleRecord)
    (hr : r.scrape_success = false) (db : List ArticleRecord) :
    (db ++ [r]).filter (fun x => x.scrape_success) =
      db.filter (fun x => x.scrape_success) :=
  filter_append_failed r hr _ db (fun _ hx => hx)

/-- C1: a record stored with `scrapeSuccess = false` never appears in `search_content`
results (under any filter combination), contributes no category to
`get_all_categories`, no author to `get_all_authors`, no tag to
`get_all_tags_with_counts`, and is not counted in any of the four count fields of
`get_content_stats`. -/
theorem failed_record_invisible (r : ArticleRecord) (hr : r.scrape_success = false) :
    (∀ db category author tag search_term limit,
        r ∉ search_content db category author tag search_term limit) ∧
    (∀ db, get_all_categories (db ++ [r]) = get_all_categories db) ∧
    (∀ db, get_all_authors (db ++ [r]) = get_all_authors db) ∧
    (∀ db, get_all_tags_with_counts (db ++ [r]) = get_all_tags_with_counts db) ∧
    (∀ db,
      (get_content_stats (db ++ [r])).total_articles =
        (get_content_stats db).total_articles ∧
      (get_content_stats (db ++ [r])).total_categories =
        (get_content_stats db).total_categories ∧
      (get_content_stats (db ++ [r])).total_authors =
        (get_content_stats db).total_authors ∧
      (get_content_stats (db ++ [r])).total_tags =
        (get_content_stats db).total_tags) := by
  refine ⟨?_, get_all_categories_append_failed r hr, get_all_authors_append_failed r hr,
    get_all_tags_append_failed r hr, ?_⟩
  · intro db category author tag search_term limit hmem
    have h1 : r ∈ (db.filter (searchOk category author tag search_term)).insertionSort ordLe :=
      List.mem_of_mem_take hmem
    rw [List.mem_insertionSort] at h1
    have h2 : searchOk category author tag search_term r = true :=
      (List.mem_filter.mp h1).2
    unfold searchOk at h2
    rw [hr] at h2
    simp at h2
  · intro db
    refine ⟨?_, ?_, ?_, ?_⟩
    · unfold get_content_stats
      simp only
      rw [filter_success_append_failed r hr db]
    · unfold get_content_stats
      simp only
      rw [get_all_categories_append_failed r hr db]
    · unfold get_content_stats
      simp only
      rw [get_all_authors_append_failed r hr db]
    · unfold get_content_stats
      simp only
      rw [get_all_tags_append_failed r hr db]

/-- C1 witness: the hypothesis discharged on the concrete failed record `rBad`. -/
theorem failed_record_invisible_witness :
    rBad ∉ search_content ([rGood] ++ [rBad]) (some "Grief") none none none 20 ∧
    get_all_categories ([rGood] ++ [rBad]) = get_all_categories [rGood] ∧
    (get_content_stats ([rGood] ++ [rBad])).total_articles =
      (get_content_stats [rGood]).total_articles :=
  ⟨(failed_record_invisible rBad rfl).1 [rGood] (some "Grief") none none none 20,
   (failed_record_invisible rBad rfl).2.1 [rGood],
   ((failed_record_invisible rBad rfl).2.2.2.2 [rGood]).1⟩

/-- C5 counterexample: in bot.py's active `LibraryView`, a search error during a
category selection leaves `current_results` holding the stale pre-event result list
(here `[rGood]`), not an explicit empty set. -/
theorem search_error_stale_results :
    ((category_callback
        { filters := { category := none, author := none, tag := none, search_term := none }
          results := [rGood]
          page := 1 }
        "Grief" (Except.error ())).1).results = [rGood] ∧
    [rGood] ≠ ([] : List ArticleRecord) :=
  ⟨rfl, by decide⟩

/-- C5 (amended): a search-execution error inside any filter/search transition is
caught at the transition boundary: an error notice is rendered, the filter fields
survive (the just-set value included) — but in bot.py's active `LibraryView` the
`results` and `page` fields simply retain their pre-event values (the stale result
list), because the failed assignment never happens; only the unwired
utils/views variant (`load_results`) resets `current_results` to an explicit empty
list on error. -/
theorem search_error_boundary (st : SessionState) (selected value : String)
    (ust : UtilsViewState) :
    category_callback st selected (Except.error ()) =
      ({ st with filters := { st.filters with
            category := if selected == "clear" then none else some selected } },
       Render.searchError) ∧
    author_callback st selected (Except.error ()) =
      ({ st with filters := { st.filters with
            author := if selected == "clear" then none else some selected } },
       Render.searchError) ∧
    tag_callback st selected (Except.error ()) =
      ({ st with filters := { st.filters with
            tag := if selected == "clear" then none else some selected } },
       Render.searchError) ∧
    search_modal_submit st value (Except.error ()) =
      ({ st with filters := { st.filters with
            search_term := if value == "" then none else some value } },
       Render.searchError) ∧
    utils_load_results ust (Except.error ()) = { ust with current_results := [] } :=
  ⟨rfl, rfl, rfl, rfl, rfl⟩

/-- C6: `previous_button` on page 0 and `next_button` on the last page are no-ops
that only emit a notice (never throwing — the transitions are total functions) and
change nothing; and with page size 5 and 12 results, three `next` then three `prev`
end at page 0 in exactly the starting state, with the identical first-page slice. -/
theorem paging_boundaries :
    (∀ st : SessionState, st.page = 0 →
        previous_button st = (st, Render.firstPageNotice)) ∧
    (∀ st : SessionState, st.page = total_pages st - 1 →
        next_button st = (st, Render.lastPageNotice)) ∧
    (∀ st : SessionState, st.page = 0 → st.results.length = 12 →
        pb (pb (pb (nb (nb (nb st))))) = st ∧
        page_slice (pb (pb (pb (nb (nb (nb st)))))) = page_slice st) := by
  refine ⟨?_, ?_, ?_⟩
  · intro st h
    unfold previous_button
    rw [h]
    simp
  · intro st h
    unfold next_button
    rw [h]
    simp
  · intro st h0 hlen
    obtain ⟨f, res, p⟩ := st
    simp only at h0 hlen
    subst h0
    have hfinal : pb (pb (pb (nb (nb (nb ⟨f, res, 0⟩))))) = ⟨f, res, 0⟩ := by
      simp [nb, pb, next_button, previous_button, total_pages, RESULTS_PER_PAGE, hlen]
    exact ⟨hfinal, by rw [hfinal]⟩

/-- C6 witness: the boundary no-op and the 3×next/3×prev round trip on a concrete
session holding 12 results. -/
theorem paging_boundaries_witness :
    previous_button sess12 = (sess12, Render.firstPageNotice) ∧
    pb (pb (pb (nb (nb (nb sess12))))) = sess12 :=
  ⟨paging_boundaries.1 sess12 rfl,
   (paging_boundaries.2.2 sess12 rfl (by decide)).1⟩

/-- C7: each dropdown transition (with a successful search outcome `res`) sets or
clears exactly its own filter field, resets `page` to 0, stores the fresh results —
and leaves the three other filter fields, including `search_term`, untouched (they
are copied from the pre-event `st.filters`). -/
theorem select_filter_frame (st : SessionState) (selected : String)
    (res : List ArticleRecord) :
    category_callback st selected (Except.ok res) =
      ({ filters := { st.filters with
            category := if selected == "clear" then none else some selected },
         results := res, page := 0 },
       if res.isEmpty then Render.noResults else Render.resultsPage) ∧
    author_callback st selected (Except.ok res) =
      ({ filters := { st.filters with
            author := if selected == "clear" then none else some selected },
         results := res, page := 0 },
       if res.isEmpty then Render.noResults else Render.resultsPage) ∧
    tag_callback st selected (Except.ok res) =
      ({ filters := { st.filters with
            tag := if selected == "clear" then none else some selected },
         results := res, page := 0 },
       if res.isEmpty then Render.noResults else Render.resultsPage) :=
  ⟨rfl, rfl, rfl⟩

/-- C9: (1) along every event trace the number of in-flight admin operations never
exceeds one; (2) a start attempt while the lock is held is rejected immediately with
the in-progress notice and changes nothing (it is not queued); (3) hence the in-flight
run's completion — and the final stats it reports — are unaffected by the rejected
attempt. -/
theorem admin_mutual_exclusion :
    (∀ (init : AdminState) (events : List AdminEvent),
        init.active.length ≤ 1 → (admin_replay init events).active.length ≤ 1) ∧
    (∀ (st : AdminState) (k : RunKind), st.active ≠ [] →
        admin_start st k = (st, AdminResponse.rejectedInProgress)) ∧
    (∀ (st : AdminState) (k : RunKind)
        (effect : List ArticleRecord → List ArticleRecord), st.active ≠ [] →
        admin_finish ((admin_start st k).1) effect = admin_finish st effect) := by
  have hstart : ∀ (st : AdminState) (k : RunKind), st.active ≠ [] →
      admin_start st k = (st, AdminResponse.rejectedInProgress) := by
    intro st k h
    unfold admin_start
    rw [if_pos]
    simp [List.isEmpty_iff, h]
  refine ⟨?_, hstart, ?_⟩
  · intro init events
    induction events generalizing init with
    | nil => intro h; exact h
    | cons e rest ih =>
        intro h
        show (admin_replay (admin_step init e) rest).active.length ≤ 1
        apply ih
        cases e with
        | start k =>
            by_cases hact : init.active = []
            · simp [admin_step, admin_start, hact]
            · rw [show admin_step init (AdminEvent.start k) = init by
                simp [admin_step, hstart init k hact]]
              exact h
        | finish eff =>
            simp only [admin_step, admin_finish]
            calc (init.active.drop 1).length = init.active.length - 1 := by
                  rw [List.length_drop]
              _ ≤ 1 := by omega
  · intro st k effect h
    rw [hstart st k h]

/-- C9 witness: a `rebuild` attempted while an `update` holds the lock is rejected
and the bound on in-flight operations holds along a concrete trace. -/
theorem admin_mutual_exclusion_witness :
    admin_start { active := [RunKind.update], db := [] } RunKind.rebuild =
      ({ active := [RunKind.update], db := [] }, AdminResponse.rejectedInProgress) ∧
    (admin_replay { active := [], db := [] }
        [AdminEvent.start RunKind.update, AdminEvent.start RunKind.rebuild,
         AdminEvent.finish id]).active.length ≤ 1 :=
  ⟨admin_mutual_exclusion.2.1 { active := [RunKind.update], db := [] }
      RunKind.rebuild (by simp),
   admin_mutual_exclusion.1 { active := [], db := [] } _ (by simp)⟩

/-- Appending a record whose `scraped_at` dominates every stored one makes it the
new maximum. -/
theorem maxScrapedAt_append_last (db : List ArticleRecord) (x : ArticleRecord)
    (h : ∀ r ∈ db, r.scraped_at ≤ x.scraped_at) :
    maxScrapedAt (db ++ [x]) = some x.scraped_at := by
  induction db with
  | nil => rfl
  | cons r rs ih =>
      have hr : r.scraped_at ≤ x.scraped_at := h r (by simp)
      have ih' := ih (fun s hs => h s (by simp [hs]))
      show maxScrapedAt (r :: (rs ++ [x])) = some x.scraped_at
      unfold maxScrapedAt
      rw [ih']
      simp [Nat.max_eq_right hr]

/-- C10: `get_content_stats` computes `last_update` as `MAX(scraped_at)` over ALL
rows: writing only a failed record (fresh URL, fresh timestamp) still advances
`last_update` to the new write's timestamp, while every one of the four counts in the
same stats result is unchanged. -/
theorem stats_last_update_counts_failed
    (db : List ArticleRecord) (d : ScrapedData) (now : Nat)
    (hfail : d.scrape_success = false)
    (hfresh : ∀ r ∈ db, r.url ≠ d.url)
    (hnow : ∀ r ∈ db, r.scraped_at ≤ now) :
    (get_content_stats (store_data db d now)).last_update = some now ∧
    (get_content_stats (store_data db d now)).total_articles =
      (get_content_stats db).total_articles ∧
    (get_content_stats (store_data db d now)).total_categories =
      (get_content_stats db).total_categories ∧
    (get_content_stats (store_data db d now)).total_authors =
      (get_content_stats db).total_authors ∧
    (get_content_stats (store_data db d now)).total_tags =
      (get_content_stats db).total_tags := by
  have hstore : store_data db d now = db ++
      [{ url := d.url, title := d.title, categories := d.categories,
         author := d.author, published_date := d.published_date, tags := d.tags,
         description := d.description, last_modified := d.last_modified,
         scraped_at := now, scrape_success := d.scrape_success }] := by
    unfold store_data
    congr 1
    refine List.filter_eq_self.mpr ?_
    intro a ha
    simp [hfresh a ha]
  rw [hstore]
  refine ⟨?_, ?_, ?_, ?_, ?_⟩
  · show (get_content_stats _).last_update = some now
    unfold get_content_stats
    simp only
    exact maxScrapedAt_append_last db _ hnow
  · unfold get_content_stats
    simp only
    rw [filter_success_append_failed _ hfail db]
  · unfold get_content_stats
    simp only
    rw [get_all_categories_append_failed _ hfail db]
  · unfold get_content_stats
    simp only
    rw [get_all_authors_append_failed _ hfail db]
  · unfold get_content_stats
    simp only
    rw [get_all_tags_append_failed _ hfail db]

/-- C10 witness: storing the concrete failed datum `dFail` over the one-record store
`[rGood]` advances `last_update` to the write timestamp and keeps the count. -/
theorem stats_last_update_counts_failed_witness :
    (get_content_stats (store_data [rGood] dFail 99)).last_update = some 99 ∧
    (get_content_stats (store_data [rGood] dFail 99)).total_articles =
      (get_content_stats [rGood]).total_articles :=
  ⟨(stats_last_update_counts_failed [rGood] dFail 99 rfl (by decide) (by decide)).1,
   (stats_last_update_counts_failed [rGood] dFail 99 rfl (by decide) (by decide)).2.1⟩

/-- The reconcile "changed" test holds exactly for entries with a stored record, a
present non-empty manifest lastmod, and a difference from the stored value. -/
theorem changed_entry_iff (db : List ArticleRecord) (u : UrlData) :
    changed_entry db u = true ↔
      ∃ r lm, findRecord db u.url = some r ∧ u.lastmod = some lm ∧ lm ≠ "" ∧
        some lm ≠ r.last_modified := by
  unfold changed_entry
  constructor
  · intro hupd
    split at hupd
    · simp at hupd
    next r hfind =>
      split at hupd
      · simp at hupd
      next lm hlm =>
        by_cases hemp : lm = ""
        · rw [if_pos (by simpa using hemp)] at hupd
          simp at hupd
        · rw [if_neg (by simpa using hemp)] at hupd
          exact ⟨r, lm, hfind, hlm, hemp, of_decide_eq_true hupd⟩
  · rintro ⟨r, lm, hfind, hlm, hemp, hdiff⟩
    rw [hfind, hlm]
    dsimp only
    rw [if_neg (by simpa using hemp)]
    exact decide_eq_true hdiff

/-- C2 counterexample: the store holds a record for `rBad.url` with
`last_modified = some "2025-01-03"`; the manifest entry for that URL carries no
lastmod (`none`), which differs from the stored value — yet `reconcile` selects
nothing, because the code also requires the manifest lastmod to be truthy. -/
theorem reconcile_missing_lastmod_skipped :
    reconcile [rBad] [{ url := rBad.url, lastmod := none }] = [] ∧
    findRecord [rBad] rBad.url = some rBad ∧
    (none : Option String) ≠ rBad.last_modified := by
  refine ⟨by decide, by decide, by decide⟩

/-- C2 (amended): `reconcile` selects exactly the manifest entries that are new (no
stored record) plus those whose manifest `lastmod` is present, non-empty and differs
from the stored `last_modified`; entries whose manifest lastmod matches the stored
value — or is absent/empty, even when the stored value differs — are skipped.  In
particular, for manifest {A (new), B (lastmod unchanged), C (lastmod changed)} over
the store {B, C}, exactly {A, C} is selected. -/
theorem reconcile_selection (db : List ArticleRecord) (m : List UrlData)
    (u : UrlData) :
    (u ∈ reconcile db m ↔
      u ∈ m ∧
        (findRecord db u.url = none ∨
          ∃ r lm, findRecord db u.url = some r ∧ u.lastmod = some lm ∧ lm ≠ "" ∧
            some lm ≠ r.last_modified)) ∧
    reconcile [recB, recC] [uA, uB, uC] = [uA, uC] := by
  constructor
  · unfold reconcile
    simp only [List.mem_append, List.mem_filter]
    constructor
    · rintro (⟨hm, hnew⟩ | ⟨hm, hupd⟩)
      · exact ⟨hm, Or.inl (Option.isNone_iff_eq_none.mp hnew)⟩
      · exact ⟨hm, Or.inr ((changed_entry_iff db u).mp hupd)⟩
    · rintro ⟨hm, hnew | hch⟩
      · exact Or.inl ⟨hm, by simp [hnew]⟩
      · exact Or.inr ⟨hm, (changed_entry_iff db u).mpr hch⟩
  · decide

/-- C3 counterexample: a URL whose every fetch attempt raises is not persisted at
all — the resulting store is still empty (so no `scrape_success = false` row exists
for it), while the error counter shows exactly one error. -/
theorem fetch_failure_not_persisted :
    run_update_loop (fun _ _ => none) 42 ([], { errors := 0, pages_scraped := 0 })
      [{ url := "https://sacredcommunityproject.org/digital-library/x",
         lastmod := some "2025-03-01" }] =
    ([], { errors := 1, pages_scraped := 0 }) := rfl

/-- C3 (amended): for a URL whose fetches fail, `scrape_page` consults at most
`max_retries = 3` attempts (any two attempt oracles agreeing on attempts 0–2 give one
and the same outcome), sleeps the fixed 2 s backoff between consecutive attempts (4 s
total over 3 attempts), and after the third failure returns no data with the error
counter incremented exactly once; the batch loop stores nothing for that URL and
continues with the remaining URLs from an otherwise unchanged state. -/
theorem fetch_failure_isolated
    (fetchFor : String → Nat → Option ScrapedData) (u : UrlData)
    (hfail : ∀ i, i < max_retries → fetchFor u.url i = none) :
    scrape_page (fetchFor u.url) = (none, 1, 4) ∧
    (∀ f g : Nat → Option ScrapedData,
        (∀ i, i < max_retries → f i = g i) → scrape_page f = scrape_page g) ∧
    (∀ (now : Nat) (db : List ArticleRecord) (stats : RunStats) (rest : List UrlData),
        run_update_loop fetchFor now (db, stats) (u :: rest) =
          run_update_loop fetchFor now
            (db, { errors := stats.errors + 1, pages_scraped := stats.pages_scraped })
            rest) := by
  have h0 := hfail 0 (by decide)
  have h1 := hfail 1 (by decide)
  have h2 := hfail 2 (by decide)
  have hpage : scrape_page (fetchFor u.url) = (none, 1, 4) := by
    simp [scrape_page, max_retries, scrape_page_go, h0, h1, h2]
  refine ⟨hpage, ?_, ?_⟩
  · intro f g h
    have e0 := h 0 (by decide)
    have e1 := h 1 (by decide)
    have e2 := h 2 (by decide)
    simp [scrape_page, max_retries, scrape_page_go, e0, e1, e2]
  · intro now db stats rest
    show run_update_loop fetchFor now (process_url fetchFor now (db, stats) u) rest = _
    rw [show process_url fetchFor now (db, stats) u =
        (db, { errors := stats.errors + 1, pages_scraped := stats.pages_scraped }) by
      unfold process_url
      rw [hpage]]

/-- C3 witness: the always-failing oracle on a concrete URL. -/
theorem fetch_failure_isolated_witness :
    scrape_page (fun _ => none) = (none, 1, 4) ∧
    run_update_loop (fun _ _ => none) 7 ([], { errors := 0, pages_scraped := 0 })
        [{ url := "u", lastmod := none }] =
      run_update_loop (fun _ _ => none) 7
        ([], { errors := 1, pages_scraped := 0 }) [] :=
  ⟨(fetch_failure_isolated (fun _ _ => none) { url := "u", lastmod := none }
      (fun _ _ => rfl)).1,
   (fetch_failure_isolated (fun _ _ => none) { url := "u", lastmod := none }
      (fun _ _ => rfl)).2.2 7 [] { errors := 0, pages_scraped := 0 } []⟩

/-! ### C4 — URL classification -/

/-- A prefix is an infix. -/
theorem infixOfPre {α : Type _} {l₁ l₂ : List α} (h : l₁ <+: l₂) : l₁ <:+: l₂ := by
  obtain ⟨t, rfl⟩ := h
  exact ⟨[], t, by simp⟩

/-- A suffix is an infix. -/
theorem infixOfSuf {α : Type _} {l₁ l₂ : List α} (h : l₁ <:+ l₂) : l₁ <:+: l₂ := by
  obtain ⟨s, rfl⟩ := h
  exact ⟨s, [], by simp⟩

/-- Characterization of `is_article_url`: the guard chain is equivalent to this
conjunction (the category/tag/author-specific guards are subsumed by the final
broader checks of the positive branch). -/
theorem is_article_url_iff (u : List Char) :
    is_article_url u = true ↔
      ¬ ("/digital-library".toList <:+ u) ∧ ¬ ("/digital-library/".toList <:+ u) ∧
      ¬ ("&author=".toList <:+: u) ∧ ("/digital-library/".toList <:+: u) ∧
      ¬ ("category/".toList <:+: u) ∧ ¬ ("tag/".toList <:+: u) ∧
      ¬ ("?".toList <:+: u) := by
  have i1 : "/digital-library/".toList <:+: u → "/digital-library".toList <:+: u :=
    fun h => (infixOfPre (by decide)).trans h
  have i2 : "/digital-library/category/".toList <:+: u → "category/".toList <:+: u :=
    fun h => (by decide : "category/".toList <:+: "/digital-library/category/".toList).trans h
  have i3 : "/digital-library/tag/".toList <:+: u → "tag/".toList <:+: u :=
    fun h => (by decide : "tag/".toList <:+: "/digital-library/tag/".toList).trans h
  have i4 : "?author=".toList <:+: u → "?".toList <:+: u :=
    fun h => (by decide : "?".toList <:+: "?author=".toList).trans h
  have i5 : "/digital-library?".toList <:+: u → "?".toList <:+: u :=
    fun h => (by decide : "?".toList <:+: "/digital-library?".toList).trans h
  unfold is_article_url
  split_ifs with h1 h2 h3 h4 h5 h6 h7 <;>
    simp only [decide_eq_true_eq, Bool.not_eq_true', decide_eq_false_iff_not,
      Bool.or_eq_true, Bool.and_eq_true, Bool.not_eq_true, Bool.not_eq_false,
      Bool.or_eq_false_iff, not_or] at *
  · constructor
    · intro hf; cases hf
    · rintro ⟨-, -, -, hdl, -, -, -⟩; exact absurd (i1 hdl) h1
  · constructor
    · intro hf; cases hf
    · rintro ⟨hn1, hn2, -, -, -, -, -⟩
      rcases h2 with h | h
      · exact hn1 h
      · exact hn2 h
  · constructor
    · intro hf; cases hf
    · rintro ⟨-, -, -, -, hcat, -, -⟩; exact hcat (i2 h3)
  · constructor
    · intro hf; cases hf
    · rintro ⟨-, -, -, -, -, htag, -⟩; exact htag (i3 h4)
  · constructor
    · intro hf; cases hf
    · rintro ⟨-, -, hamp, -, -, -, hq⟩
      rcases h5 with h | h
      · exact hq (i4 h)
      · exact hamp h
  · constructor
    · intro hf; cases hf
    · rintro ⟨-, -, -, -, -, -, hq⟩; exact hq (i5 h6)
  · constructor
    · intro _
      exact ⟨h2.1, h2.2, h5.2, h7.1, h7.2.1.1, h7.2.1.2, h7.2.2⟩
    · intro _; trivial
  · constructor
    · intro hf; cases hf
    · rintro ⟨-, -, -, hdl, hcat, htag, hq⟩
      exact h7 ⟨hdl, ⟨hcat, htag⟩, hq⟩

/-- A singleton is an infix exactly when its element occurs. -/
theorem singleton_inf_iff {α : Type _} {c : α} {l : List α} :
    [c] <:+: l ↔ c ∈ l := by
  constructor
  · rintro ⟨s, t, rfl⟩; simp
  · intro h
    obtain ⟨s, t, rfl⟩ := List.append_of_mem h
    exact ⟨s, t, by simp⟩

/-- An infix occurrence ending in a character absent from the appended tail must lie
inside the front part. -/
theorem infix_end_excluded {α : Type _} {s₁ s₂ m : List α} {c : α} (hc : c ∉ s₂)
    (h : (m ++ [c]) <:+: (s₁ ++ s₂)) : (m ++ [c]) <:+: s₁ := by
  obtain ⟨t, u, hst⟩ := h
  have hlen : (t ++ (m ++ [c]) ++ u).length = (s₁ ++ s₂).length := by rw [hst]
  simp only [List.length_append, List.length_cons, List.length_nil] at hlen
  have hidx : t.length + m.length < s₁.length := by
    by_contra hge
    push_neg at hge
    have hget : (s₁ ++ s₂)[t.length + m.length]? = some c := by
      rw [← hst]
      have hassoc : t ++ (m ++ [c]) ++ u = (t ++ m) ++ ([c] ++ u) := by
        simp [List.append_assoc]
      rw [hassoc]
      rw [List.getElem?_append_right (by simp)]
      simp
    have hmem : c ∈ s₂ := by
      rw [List.getElem?_append_right (by simpa using hge)] at hget
      exact List.getElem?_mem hget
    exact hc hmem
  have hpre : (t ++ (m ++ [c])) <+: s₁ ++ s₂ :=
    ⟨u, by rw [← hst]⟩
  have hpre2 : (t ++ (m ++ [c])) <+: s₁ := by
    refine List.prefix_of_prefix_length_le hpre ⟨s₂, rfl⟩ ?_
    simp only [List.length_append, List.length_cons, List.length_nil]
    omega
  obtain ⟨w, hw⟩ := hpre2
  exact ⟨t, w, by rw [← hw]⟩

/-- A suffix containing a character absent from the appended tail overhangs into the
front part: it splits as a non-empty suffix of the front followed by the whole tail. -/
theorem suffix_overhang {α : Type _} {s₁ s₂ n : List α} {c : α}
    (hcn : c ∈ n) (hc : c ∉ s₂) (h : n <:+ s₁ ++ s₂) :
    ∃ n', n = n' ++ s₂ ∧ n' <:+ s₁ ∧ n' ≠ [] := by
  have hlen : s₂.length < n.length := by
    by_contra hle
    push_neg at hle
    have hsub : n <:+ s₂ :=
      List.suffix_of_suffix_length_le h ⟨s₁, rfl⟩ hle
    exact hc (hsub.subset hcn)
  have hs₂ : s₂ <:+ n :=
    List.suffix_of_suffix_length_le ⟨s₁, rfl⟩ h (by omega)
  obtain ⟨n', rfl⟩ := hs₂
  obtain ⟨w, hw⟩ := h
  have hws0 : (w ++ n') ++ s₂ = s₁ ++ s₂ := by
    rw [← hw]
    simp [List.append_assoc]
  have hws : w ++ n' = s₁ := List.append_cancel_right hws0
  refine ⟨n', rfl, ⟨w, hws⟩, ?_⟩
  intro hnil
  rw [hnil] at hlen
  simp at hlen

/-- A non-empty suffix determines the last element. -/
theorem suffix_getLast?_eq {α : Type _} {l₁ l₂ : List α} (h : l₁ <:+ l₂)
    (hne : l₁ ≠ []) : l₂.getLast? = l₁.getLast? := by
  obtain ⟨s, rfl⟩ := h
  rw [List.getLast?_append]
  cases hl : l₁.getLast? with
  | none => exact absurd (List.getLast?_eq_none_iff.mp hl) hne
  | some a => rfl

/-- Characters failing the well-formed-slug character class do not occur in a
well-formed slug. -/
theorem slug_char_not_mem {slug : List Char}
    (hchar : ∀ c ∈ slug, c.isLower = true ∨ c.isDigit = true ∨ c = '-')
    (c₀ : Char) (hc₀ : (c₀.isLower = true ∨ c₀.isDigit = true ∨ c₀ = '-') → False) :
    c₀ ∉ slug :=
  fun hm => hc₀ (hchar c₀ hm)

/-- Every well-formed content URL `base + /digital-library/<slug>` — slug non-empty,
over lowercase letters, digits and hyphens, and not itself `digital-library` — is
classified as an article. -/
theorem slug_classified_article (slug : List Char)
    (hne : slug ≠ [])
    (hchar : ∀ c ∈ slug, c.isLower = true ∨ c.isDigit = true ∨ c = '-')
    (hdl : slug ≠ "digital-library".toList) :
    is_article_url (library_root ++ slug) = true := by
  have hslash : '/' ∉ slug := slug_char_not_mem hchar '/' (by decide)
  have hq : '?' ∉ slug := slug_char_not_mem hchar '?' (by decide)
  have heq : '=' ∉ slug := slug_char_not_mem hchar '=' (by decide)
  refine (is_article_url_iff _).mpr ⟨?_, ?_, ?_, ?_, ?_, ?_, ?_⟩
  · -- not endswith "/digital-library"
    intro h
    obtain ⟨n', hn, hsuf, hne'⟩ :=
      suffix_overhang (by decide : '/' ∈ "/digital-library".toList) hslash h
    have hlast : n'.getLast? = some '/' := by
      rw [← suffix_getLast?_eq hsuf hne']
      decide
    have hpren : n' <+: "/digital-library".toList := ⟨slug, hn.symm⟩
    have hk : n' = ("/digital-library".toList).take n'.length :=
      List.prefix_iff_eq_take.mp hpren
    have hkle : n'.length ≤ 16 := by
      have := hpren.length_le
      simpa using this
    have hk1 : n'.length = 1 := by
      have hdec : ∀ k, k ≤ 16 → 1 ≤ k →
          ((("/digital-library".toList).take k).getLast? = some '/') → k = 1 := by decide
      refine hdec n'.length hkle ?_ ?_
      · cases n' with
        | nil => exact absurd rfl hne'
        | cons a t => simp
      · rw [← hk]; exact hlast
    have hn'' : n' = ['/'] := by
      rw [hk, hk1]
      decide
    rw [hn''] at hn
    have hcons : "/digital-library".toList = '/' :: "digital-library".toList := by decide
    rw [hcons] at hn
    simp only [List.singleton_append, List.cons.injEq] at hn
    exact hdl hn.2.symm
  · -- not endswith "/digital-library/"
    intro h
    have hlast : (library_root ++ slug).getLast? = some '/' := by
      rw [suffix_getLast?_eq h (by decide)]
      decide
    rw [List.getLast?_append] at hlast
    cases hsl : slug.getLast? with
    | none => exact hne (List.getLast?_eq_none_iff.mp hsl)
    | some a =>
        rw [hsl] at hlast
        simp only [Option.or_some, Option.some.injEq] at hlast
        subst hlast
        exact hslash (List.mem_of_mem_getLast? (Option.mem_def.mpr hsl))
  · -- no "&author="
    intro h
    have hsplit : "&author=".toList = "&author".toList ++ ['='] := by decide
    rw [hsplit] at h
    have h2 := infix_end_excluded heq h
    exact absurd h2 (by decide)
  · -- contains "/digital-library/"
    exact (by decide : "/digital-library/".toList <:+: library_root).trans
      (infixOfPre ⟨slug, rfl⟩)
  · -- no "category/"
    intro h
    have hsplit : "category/".toList = "category".toList ++ ['/'] := by decide
    rw [hsplit] at h
    have h2 := infix_end_excluded hslash h
    exact absurd h2 (by decide)
  · -- no "tag/"
    intro h
    have hsplit : "tag/".toList = "tag".toList ++ ['/'] := by decide
    rw [hsplit] at h
    have h2 := infix_end_excluded hslash h
    exact absurd h2 (by decide)
  · -- no "?"
    intro h
    have hmem : '?' ∈ library_root ++ slug := singleton_inf_iff.mp h
    rcases List.mem_append.mp hmem with hm | hm
    · exact absurd hm (by decide)
    · exact hq hm

/-- C4 counterexample: the slug `digital-library` is a well-formed slug, yet the
resulting content URL `base + /digital-library/digital-library` ends with
`/digital-library` and is therefore classified as a non-article, contradicting the
claim that every well-formed content URL with no query string classifies true. -/
theorem classify_counterexample :
    is_article_url (library_root ++ "digital-library".toList) = false ∧
    "digital-library".toList ≠ [] ∧
    (∀ c ∈ "digital-library".toList,
      c.isLower = true ∨ c.isDigit = true ∨ c = '-') := by
  refine ⟨by decide, by decide, by decide⟩

/-- C4 (amended): `is_article_url` returns false for the canonical listing root
(with or without trailing slash), every category-index URL, every tag-index URL,
every author-query URL (`?author=`/`&author=` or any `/digital-library?` query), and
returns true for every well-formed content URL `base + /digital-library/<slug>` with
no query string — except when the slug is itself `digital-library`, which makes the
URL end in `/digital-library` and triggers the listing-root exclusion. -/
theorem classify_url :
    is_article_url (base_url ++ "/digital-library").toList = false ∧
    is_article_url (base_url ++ "/digital-library/").toList = false ∧
    (∀ url, "/digital-library/category/".toList <:+: url →
        is_article_url url = false) ∧
    (∀ url, "/digital-library/tag/".toList <:+: url →
        is_article_url url = false) ∧
    (∀ url, ("?author=".toList <:+: url ∨ "&author=".toList <:+: url) →
        is_article_url url = false) ∧
    (∀ url, "/digital-library?".toList <:+: url →
        is_article_url url = false) ∧
    (∀ slug : List Char, slug ≠ [] →
        (∀ c ∈ slug, c.isLower = true ∨ c.isDigit = true ∨ c = '-') →
        slug ≠ "digital-library".toList →
        is_article_url (library_root ++ slug) = true) := by
  refine ⟨by decide, by decide, ?_, ?_, ?_, ?_, slug_classified_article⟩
  · intro url h
    refine Bool.eq_false_iff.mpr (fun ht => ?_)
    exact ((is_article_url_iff url).mp ht).2.2.2.2.1
      ((by decide : "category/".toList <:+: "/digital-library/category/".toList).trans h)
  · intro url h
    refine Bool.eq_false_iff.mpr (fun ht => ?_)
    exact ((is_article_url_iff url).mp ht).2.2.2.2.2.1
      ((by decide : "tag/".toList <:+: "/digital-library/tag/".toList).trans h)
  · intro url h
    refine Bool.eq_false_iff.mpr (fun ht => ?_)
    rcases h with h | h
    · exact ((is_article_url_iff url).mp ht).2.2.2.2.2.2
        ((by decide : "?".toList <:+: "?author=".toList).trans h)
    · exact ((is_article_url_iff url).mp ht).2.2.1 h
  · intro url h
    refine Bool.eq_false_iff.mpr (fun ht => ?_)
    exact ((is_article_url_iff url).mp ht).2.2.2.2.2.2
      ((by decide : "?".toList <:+: "/digital-library?".toList).trans h)

/-- C4 witness: a concrete category-index URL rejected and a concrete well-formed
slug URL accepted, both through `classify_url`. -/
theorem classify_url_witness :
    is_article_url
      "https://sacredcommunityproject.org/digital-library/category/grief".toList =
      false ∧
    is_article_url (library_root ++ "healing-grief".toList) = true :=
  ⟨classify_url.2.2.1 _ (by decide),
   classify_url.2.2.2.2.2.2 "healing-grief".toList (by decide) (by decide) (by decide)⟩

/-! ### C8 — top-tags selection -/

/-- `charListLe` is total. -/
theorem charListLe_total : ∀ a b : List Char,
    charListLe a b = true ∨ charListLe b a = true := by
  intro a
  induction a with
  | nil => intro b; left; rfl
  | cons x xs ih =>
      intro b
      cases b with
      | nil => right; rfl
      | cons y ys =>
          by_cases hxy : x = y
          · subst hxy
            simpa [charListLe] using ih ys
          · rcases lt_trichotomy x y with h | h | h
            · left; simp [charListLe, hxy]; exact h
            · exact absurd h hxy
            · right; simp [charListLe, Ne.symm hxy]; exact h

/-- `charListLe` is transitive. -/
theorem charListLe_trans : ∀ a b c : List Char, charListLe a b = true →
    charListLe b c = true → charListLe a c = true := by
  intro a
  induction a with
  | nil => intro b c _ _; rfl
  | cons x xs ih =>
      intro b c hab hbc
      cases b with
      | nil => simp [charListLe] at hab
      | cons y ys =>
          cases c with
          | nil => simp [charListLe] at hbc
          | cons z zs =>
              by_cases hxy : x = y <;> by_cases hyz : y = z
              · subst hxy; subst hyz
                simp only [charListLe, if_pos rfl] at hab hbc ⊢
                exact ih ys zs hab hbc
              · subst hxy
                simp only [charListLe, if_pos rfl, if_neg hyz] at hbc ⊢
                exact hbc
              · subst hyz
                simp only [charListLe, if_neg hxy] at hab ⊢
                exact hab
              · simp only [charListLe, if_neg hxy, if_neg hyz,
                  decide_eq_true_eq] at hab hbc
                have hxz : x < z := lt_trans hab hbc
                simp only [charListLe, if_neg (ne_of_lt hxz), decide_eq_true_eq]
                exact hxz

/-- The keys of `bumpTag` are the old keys, with `t` appended when new. -/
theorem map_fst_bumpTag (c : List (String × Nat)) (t : String) :
    (bumpTag c t).map Prod.fst =
      if t ∈ c.map Prod.fst then c.map Prod.fst else c.map Prod.fst ++ [t] := by
  induction c with
  | nil => simp [bumpTag]
  | cons p rest ih =>
      obtain ⟨s, n⟩ := p
      by_cases hst : s = t
      · subst hst
        simp [bumpTag]
      · by_cases hmem : t ∈ rest.map Prod.fst
        · simp [bumpTag, hst, ih, hmem, Ne.symm hst]
        · simp [bumpTag, hst, ih, hmem, Ne.symm hst]

/-- `bumpTag` preserves distinctness of keys. -/
theorem nodup_keys_bumpTag (c : List (String × Nat)) (t : String)
    (h : (c.map Prod.fst).Nodup) : ((bumpTag c t).map Prod.fst).Nodup := by
  rw [map_fst_bumpTag]
  split_ifs with hmem
  · exact h
  · simp [List.nodup_append, h, hmem]

/-- Folding one row's tags preserves distinctness of keys. -/
theorem nodup_keys_foldl_tags (tags : List String) :
    ∀ acc : List (String × Nat), (acc.map Prod.fst).Nodup →
      ((tags.foldl bumpTag acc).map Prod.fst).Nodup := by
  induction tags with
  | nil => intro acc h; exact h
  | cons t rest ih =>
      intro acc h
      exact ih (bumpTag acc t) (nodup_keys_bumpTag acc t h)

/-- The tag-count table has pairwise-distinct keys (it models a Python dict). -/
theorem nodup_keys_tagCounts (rows : List (List String)) :
    ((tagCounts rows).map Prod.fst).Nodup := by
  unfold tagCounts
  suffices h : ∀ acc : List (String × Nat), (acc.map Prod.fst).Nodup →
      ((rows.foldl (fun acc tags => tags.foldl bumpTag acc) acc).map Prod.fst).Nodup from
    h [] (by simp)
  induction rows with
  | nil => intro acc h; exact h
  | cons tags rest ih =>
      intro acc h
      exact ih (tags.foldl bumpTag acc) (nodup_keys_foldl_tags tags acc h)

/-- C8 counterexample: over tag frequencies {grief 5, healing 5, music 1} the code
returns all three tags (its cutoff is the fixed 24, not a `maxCount` parameter), not
the claimed two-element list; and over 25 once-occurring tags first seen in reverse
alphabetical order, the alphabetically first tag `t01` is dropped at the cutoff even
though its count ties the kept `t25` — the cutoff tie-break is first-seen order, not
alphabetical. -/
theorem top_tags_counterexample :
    get_all_tags_with_counts tagDb3 = ["grief", "healing", "music"] ∧
    get_all_tags_with_counts tagDb3 ≠ ["grief", "healing"] ∧
    ("t01", 1) ∈ tagCounts (tagRows tagDb25) ∧
    ("t25", 1) ∈ tagCounts (tagRows tagDb25) ∧
    "t01" ∉ get_all_tags_with_counts tagDb25 ∧
    "t25" ∈ get_all_tags_with_counts tagDb25 := by
  refine ⟨by decide, by decide, by decide, by decide, by decide, by decide⟩

/-- C8 (amended): `get_all_tags_with_counts` takes no maxCount — the cutoff is fixed
at 24.  For every store it returns an alphabetically sorted list of stored tags whose
length is `min 24 (number of distinct tags)`; when at most 24 distinct tags exist
every stored tag appears; and every excluded tag's count is at most every included
tag's count (membership is by frequency, ties at the cutoff resolved by first-seen
order in the table scan, not alphabetically). -/
theorem top_tags_selection (db : List ArticleRecord) :
    List.Sorted strLeRel (get_all_tags_with_counts db) ∧
    (get_all_tags_with_counts db).length = min 24 (tagCounts (tagRows db)).length ∧
    (∀ t ∈ get_all_tags_with_counts db, ∃ n, (t, n) ∈ tagCounts (tagRows db)) ∧
    ((tagCounts (tagRows db)).length ≤ 24 →
        ∀ p ∈ tagCounts (tagRows db), p.1 ∈ get_all_tags_with_counts db) ∧
    (∀ p ∈ tagCounts (tagRows db), ∀ q ∈ tagCounts (tagRows db),
        p.1 ∈ get_all_tags_with_counts db → q.1 ∉ get_all_tags_with_counts db →
        q.2 ≤ p.2) := by
  haveI : IsTotal String strLeRel :=
    ⟨fun a b => charListLe_total a.toList b.toList⟩
  haveI : IsTrans String strLeRel :=
    ⟨fun a b c => charListLe_trans a.toList b.toList c.toList⟩
  haveI : IsTotal (String × Nat) countDescLe := ⟨fun a b => Nat.le_total b.2 a.2⟩
  haveI : IsTrans (String × Nat) countDescLe :=
    ⟨fun _ _ _ hab hbc => le_trans hbc hab⟩
  have hR : get_all_tags_with_counts db =
      ((((tagCounts (tagRows db)).insertionSort countDescLe).take 24).map
        Prod.fst).insertionSort strLeRel := rfl
  set counts := tagCounts (tagRows db) with hcounts
  set srt := counts.insertionSort countDescLe with hsrt
  set top := (srt.take 24).map Prod.fst with htop
  refine ⟨?_, ?_, ?_, ?_, ?_⟩
  · rw [hR]
    exact List.sorted_insertionSort strLeRel top
  · rw [hR, List.length_insertionSort]
    simp only [htop, List.length_map, List.length_take]
    rw [hsrt, List.length_insertionSort]
  · intro t htR
    rw [hR, List.mem_insertionSort] at htR
    obtain ⟨p, hpmem, hpfst⟩ := List.mem_map.mp htR
    have hps : p ∈ srt := List.mem_of_mem_take hpmem
    rw [hsrt, List.mem_insertionSort] at hps
    exact ⟨p.2, by rw [← hpfst]; exact hps⟩
  · intro hlen p hp
    have hsl : srt.length = counts.length := List.length_insertionSort _ _
    have htake : srt.take 24 = srt := List.take_of_length_le (by omega)
    rw [hR, List.mem_insertionSort]
    rw [htop, htake]
    refine List.mem_map.mpr ⟨p, ?_, rfl⟩
    rw [hsrt, List.mem_insertionSort]
    exact hp
  · intro p hp q hq hpR hqR
    have hsorted : List.Pairwise countDescLe srt :=
      List.sorted_insertionSort countDescLe counts
    have hnodup : (counts.map Prod.fst).Nodup := nodup_keys_tagCounts _
    have hqs : q ∈ srt := by
      rw [hsrt, List.mem_insertionSort]
      exact hq
    have hqtake : q ∉ srt.take 24 := by
      intro hmem
      refine hqR ?_
      rw [hR, List.mem_insertionSort]
      exact List.mem_map.mpr ⟨q, hmem, rfl⟩
    have hqdrop : q ∈ srt.drop 24 := by
      have hsplit : srt.take 24 ++ srt.drop 24 = srt := List.take_append_drop 24 srt
      rw [← hsplit] at hqs
      exact (List.mem_append.mp hqs).resolve_left hqtake
    rw [hR, List.mem_insertionSort] at hpR
    obtain ⟨pp, hpptake, hppfst⟩ := List.mem_map.mp hpR
    have hppcounts : pp ∈ counts := by
      have := List.mem_of_mem_take hpptake
      rw [hsrt, List.mem_insertionSort] at this
      exact this
    have hpp : pp = p := List.inj_on_of_nodup_map hnodup hppcounts hp hppfst
    have hpair : ∀ x ∈ srt.take 24, ∀ y ∈ srt.drop 24, countDescLe x y := by
      have hps := hsorted
      rw [← List.take_append_drop 24 srt] at hps
      exact fun x hx y hy => (List.pairwise_append.mp hps).2.2 x hx y hy
    have := hpair pp hpptake q hqdrop
    rw [hpp] at this
    exact this

/-- C8 witness: the general selection theorem applied to the concrete stores — the
small store re-lists every tag; in the 25-tag store the kept `t25` dominates the
dropped `t01`. -/
theorem top_tags_selection_witness :
    "music" ∈ get_all_tags_with_counts tagDb3 ∧ (1 : Nat) ≤ 1 :=
  ⟨(top_tags_selection tagDb3).2.2.2.1 (by decide) ("music", 1) (by decide),
   (top_tags_selection tagDb25).2.2.2.2 ("t25", 1) (by decide) ("t01", 1) (by decide)
     (by decide) (by decide)⟩

end SCPBot
